import Mathlib

/-!
Verification of the go-shp shapefile library (WangNingkai/go-shp).

The Go sources are shallowly embedded: files are lists of byte values
(naturals below 256), machine integers are `Nat`/`Int` with explicit
wrap-around where it matters, stateful code is explicit state passing, and
fallible code returns `Option` or a dedicated result type with a `panic`
constructor for Go runtime panics.  Floats never reach any arithmetic that
the claims depend on; coordinates are modelled as rationals (the spec's
bounding-box invariant excludes NaN and infinities, on which IEEE comparison
is a linear order).
-/

set_option maxRecDepth 10000

namespace GoShp

/-! ## Primitive byte readers (src/errreader.go, encoding/binary)

A file is a `List Nat` of byte values.  `binary.Read` of an int32 through an
`errReader` fails the whole read if any of the four bytes is missing. -/

/-- Big-endian unsigned 32-bit read at offset `i`; `none` on a short read. -/
def beU32At? (file : List Nat) (i : Nat) : Option Nat :=
  match file.get? i, file.get? (i+1), file.get? (i+2), file.get? (i+3) with
  | some b0, some b1, some b2, some b3 => some (((b0 * 256 + b1) * 256 + b2) * 256 + b3)
  | _, _, _, _ => none

/-- Little-endian unsigned 32-bit read at offset `i`; `none` on a short read. -/
def leU32At? (file : List Nat) (i : Nat) : Option Nat :=
  match file.get? i, file.get? (i+1), file.get? (i+2), file.get? (i+3) with
  | some b0, some b1, some b2, some b3 => some (((b3 * 256 + b2) * 256 + b1) * 256 + b0)
  | _, _, _, _ => none

/-- Reinterpret an unsigned 32-bit value as Go's signed int32. -/
def toInt32 (n : Nat) : Int :=
  if n < 2 ^ 31 then (n : Int) else (n : Int) - 2 ^ 32

/-- Big-endian int32 read (`readBE` of src/errreader.go on an int32). -/
def beI32At? (file : List Nat) (i : Nat) : Option Int :=
  (beU32At? file i).map toInt32

/-- Little-endian int32 read (`readLE` of src/errreader.go on an int32). -/
def leI32At? (file : List Nat) (i : Nat) : Option Int :=
  (leU32At? file i).map toInt32

/-! ## Shape-type tags

The geometry source file is not under src/; the tag values below are those of
the fourteen cases listed in spec §3, which are exactly the cases of
`newShape` in src/reader.go. -/

/-- Modelled from the spec: the `NULL` shape-type tag (§3). -/
def NULL : Int := 0

/-- Modelled from the spec: the `MULTIPATCH` shape-type tag, the largest of the
fourteen enumerated values (§3). -/
def MULTIPATCH : Int := 31

/-- The fourteen known shape-type tag values, exactly the cases of `newShape`
(src/reader.go) and the enumeration of spec §3. -/
def knownShapeTypeTags : List Int :=
  [0, 1, 3, 5, 8, 11, 13, 15, 18, 21, 23, 25, 28, 31]

/-! ## Record framing (src/record_utils.go) -/

/-- `readShapeRecordHeader` (src/record_utils.go) positioned at byte `pos`:
record number (BE int32), content length in 16-bit words (BE int32), shape
type (LE int32); a short read on any field fails the whole header read. -/
def readShapeRecordHeaderAt (file : List Nat) (pos : Nat) :
    Option (Int × Int × Int) :=
  match beI32At? file pos, beI32At? file (pos + 4), leI32At? file (pos + 8) with
  | some num, some size, some st => some (num, size, st)
  | _, _, _ => none

/-! ## Reader header parsing (src/reader.go, src/header_utils.go) -/

/-- Result of `Reader.readHeaders` (src/reader.go).  `filelength` is the
iteration bound later used by `Reader.Next` (`cur >= r.filelength` stops the
iteration); `declaredWords` is the value the method reads at byte 24 into a
local variable and then never uses; `geometryType` is the little-endian tag at
byte 32.  The bounding-box doubles at bytes 36-67 are also read by the source
but are not needed by any claim and are not recorded here. -/
structure ShpHeaderInfo where
  filelength : Nat
  declaredWords : Option Int
  geometryType : Option Int
deriving DecidableEq, Repr

/-- `Reader.readHeaders` (src/reader.go): `r.filelength, _ = r.shp.Seek(0,
io.SeekEnd)` takes the actual file size as the iteration bound (the comment in
the source reads "don't trust the the filelength in the header"); the
header-declared length at byte 24 is read and discarded.  The variant in
src/unnamed/part_005 behaves the same: it takes the size from
`readShpHeaderSeeker` (src/header_utils.go), which is also `Seek(0, SeekEnd)`,
and its `fl > actualSize` guard compares that value against `Stat().Size()`,
two readings of the same actual size. -/
def readHeaders (file : List Nat) : ShpHeaderInfo :=
  { filelength := file.length
    declaredWords := beI32At? file 24
    geometryType := leI32At? file 32 }

/-! ## Resynchronization (src/unnamed/part_005, Reader.trySkipToNextValidShape) -/

/-- The candidate test of `trySkipToNextValidShape` (src/unnamed/part_005):
the record header at `pos` must parse, the content length must satisfy
`size >= 0 && size < 100000`, the tag must satisfy
`shapetype >= NULL && shapetype <= MULTIPATCH` (the whole int32 range 0..31,
not merely the fourteen enumerated values), and the implied record end
`pos + size*2 + 8` must lie within the iteration bound. -/
def validCandidate (file : List Nat) (filelength pos : Nat) : Bool :=
  match readShapeRecordHeaderAt file pos with
  | none => false
  | some (_, size, shapetype) =>
    decide (0 ≤ size) && decide (size < 100000) &&
      (decide (NULL ≤ shapetype) && decide (shapetype ≤ MULTIPATCH)) &&
      decide (pos + size.toNat * 2 + 8 ≤ filelength)

/-- The scan loop of `trySkipToNextValidShape` (src/unnamed/part_005):
`for pos := currentPos + 8; pos < r.filelength-8; pos += 4`, returning the
first candidate position whose header passes `validCandidate` (the source then
seeks there and re-enters `Next`), or `none` when the scan exhausts the file
(the source prints a diagnostic and returns false, ending the iteration). -/
def trySkipFrom (file : List Nat) (filelength pos : Nat) : Option Nat :=
  if h : pos < filelength - 8 then
    if validCandidate file filelength pos then some pos
    else trySkipFrom file filelength (pos + 4)
  else none
termination_by filelength - 8 - pos
decreasing_by omega

/-- `Reader.trySkipToNextValidShape` (src/unnamed/part_005) given the byte
position `cur` of the corrupted record: scan from `cur + 8` in 4-byte steps. -/
def trySkipToNextValidShape (file : List Nat) (filelength cur : Nat) : Option Nat :=
  trySkipFrom file filelength (cur + 8)

/-- Find-first characterization of the scan loop. -/
theorem trySkipFrom_iff (file : List Nat) (filelength : Nat) :
    ∀ pos q : Nat, trySkipFrom file filelength pos = some q ↔
      ∃ k, q = pos + 4 * k ∧ q < filelength - 8 ∧
        validCandidate file filelength q = true ∧
        ∀ j, j < k → validCandidate file filelength (pos + 4 * j) = false := by
  have main : ∀ m pos q : Nat, filelength - 8 - pos ≤ m →
      (trySkipFrom file filelength pos = some q ↔
       ∃ k, q = pos + 4 * k ∧ q < filelength - 8 ∧
         validCandidate file filelength q = true ∧
         ∀ j, j < k → validCandidate file filelength (pos + 4 * j) = false) := by
    intro m
    induction m with
    | zero =>
      intro pos q hm
      rw [trySkipFrom]
      have hpos : ¬ pos < filelength - 8 := by omega
      rw [dif_neg hpos]
      constructor
      · intro h; exact absurd h (by simp)
      · rintro ⟨k, rfl, hlt, _, _⟩
        exact absurd hlt (by omega)
    | succ m ih =>
      intro pos q hm
      rw [trySkipFrom]
      by_cases hpos : pos < filelength - 8
      · rw [dif_pos hpos]
        by_cases hv : validCandidate file filelength pos = true
        · rw [if_pos hv]
          constructor
          · intro h
            have hq : pos = q := Option.some.inj h
            subst hq
            exact ⟨0, by omega, hpos, hv, fun j hj => absurd hj (Nat.not_lt_zero j)⟩
          · rintro ⟨k, rfl, hlt, hvq, hmin⟩
            rcases Nat.eq_zero_or_pos k with hk | hk
            · subst hk; simp
            · have h0 := hmin 0 hk
              simp only [Nat.mul_zero, Nat.add_zero] at h0
              exact absurd hv (by simp [h0])
        · rw [if_neg hv]
          rw [ih (pos + 4) q (by omega)]
          constructor
          · rintro ⟨k, rfl, hlt, hvq, hmin⟩
            refine ⟨k + 1, by omega, by omega, hvq, ?_⟩
            intro j hj
            cases j with
              | zero =>
                simp only [Nat.mul_zero, Nat.add_zero]
                simpa using hv
              | succ j =>
                have hmj := hmin j (by omega)
                have : pos + 4 * (j + 1) = pos + 4 + 4 * j := by omega
                rw [this]; exact hmj
          · rintro ⟨k, rfl, hlt, hvq, hmin⟩
            cases k with
            | zero =>
              simp only [Nat.mul_zero, Nat.add_zero] at hvq
              exact absurd hvq hv
            | succ k =>
              refine ⟨k, by omega, by omega, hvq, ?_⟩
              intro j hj
              have hmj := hmin (j + 1) (by omega)
              have h4 : pos + 4 * (j + 1) = pos + 4 + 4 * j := by omega
              rw [h4] at hmj; exact hmj
      · rw [dif_neg hpos]
        constructor
        · intro h; exact absurd h (by simp)
        · rintro ⟨k, rfl, hlt, _, _⟩
          exact absurd hlt (by omega)
  intro pos q
  exact main (filelength - 8 - pos) pos q le_rfl

/-! ## Geometry model (missing source file)

The file defining `Box`, `Field`, the field factories and the shape variants
is not under src/; only its callers (src/writer.go, src/reader.go,
src/geojson.go, src/dbf_utils.go) are.  The pieces the claims need are
modelled from the spec. -/

/-- Modelled from the spec: the bounding box of four coordinates (§3).  The
source stores IEEE doubles; the spec's invariant excludes NaN and infinity, on
which IEEE comparison is a linear order, so coordinates are rationals here. -/
structure Box where
  MinX : ℚ
  MinY : ℚ
  MaxX : ℚ
  MaxY : ℚ
deriving DecidableEq, Repr

/-- Modelled from the spec: `bbox.extend(other)` yields the componentwise
(min, max) union (§4.2). -/
def Box.Extend (b o : Box) : Box :=
  ⟨min b.MinX o.MinX, min b.MinY o.MinY, max b.MaxX o.MaxX, max b.MaxY o.MaxY⟩

/-- Modelled from the spec: a shape variant as the writer sees it.  `bbox` is
the value of the shape's `BBox()` accessor; `payloadWords` is the number of
16-bit words that the shape's `write` method emits after the 4-byte type tag -
per the content-length formulas of §4.2 every variant's record content (type
tag included) is a whole number of 16-bit words, so the payload after the tag
is one as well. -/
structure ShapeModel where
  bbox : Box
  payloadWords : Nat
deriving DecidableEq, Repr

/-- Modelled from the spec: DBF field descriptor (§3).  Only the components
the claims touch are kept; `Size` and `Precision` are single bytes (0-255) on
disk.  The 11-byte NUL-padded encoding of `Name` stays at the string level
since no claim inspects it. -/
structure Field where
  Name : String
  Fieldtype : Nat
  Size : Nat
  Precision : Nat
deriving DecidableEq, Repr

/-- Modelled from the spec: `StringField(name, size)` constructs a character
field, type byte 'C' = 67 (§3, README field factories). -/
def StringField (name : String) (size : Nat) : Field :=
  ⟨name, 67, size, 0⟩

/-- Modelled from the spec: `NumberField(name, size)` constructs a numeric
integer field, type byte 'N' = 78 (§3, README field factories). -/
def NumberField (name : String) (size : Nat) : Field :=
  ⟨name, 78, size, 0⟩

/-- Modelled from the spec: `FloatField(name, size, precision)` constructs a
floating field, type byte 'F' = 70 (§3, README field factories). -/
def FloatField (name : String) (size prec : Nat) : Field :=
  ⟨name, 70, size, prec⟩

/-- Sum of the sizes of the first `n` fields, the value the seek-offset loops
of src/reader.go and src/dbf_utils.go accumulate. -/
def sumSizes (fields : List Field) (n : Nat) : Nat :=
  ((fields.take n).map Field.Size).sum

/-- `dbfFieldStartByte` (src/dbf_utils.go): deletion flag plus the sizes of
the preceding fields. -/
def dbfFieldStartByte (fields : List Field) (n : Nat) : Nat :=
  1 + sumSizes fields n

/-- `dbfFieldOffset` (src/dbf_utils.go): absolute offset of cell (row, n);
`base` already includes the deletion flag, so the start byte is re-adjusted. -/
def dbfFieldOffset (headerLength recordLength row : Nat) (fields : List Field)
    (n : Nat) : Nat :=
  1 + headerLength + row * recordLength + (dbfFieldStartByte fields n - 1)

/-! ## Writer (src/writer.go) -/

/-- The DBF side of an initialized writer: the record length read or computed
at initialization and the bytes of the .dbf file written so far. -/
structure DbfWriter where
  recordLength : Nat
  file : List Nat
deriving DecidableEq, Repr

/-- Writer state (src/writer.go).  `shpPos` is the current .shp write
position, which between calls always sits at the end of the written bytes;
`shxEntries` is the list of (offset, contentLength) pairs appended to the
.shx body, both in 16-bit words; `dbf` is `none` until `SetFields` creates
the DBF (or `Append` finds one). -/
structure WriterState where
  shpPos : Nat
  shxEntries : List (Nat × Nat)
  num : Nat
  bbox : Box
  geometryType : Int
  dbfFields : List Field
  dbfHeaderLength : Nat
  dbfRecordLength : Nat
  dbf : Option DbfWriter
deriving DecidableEq, Repr

/-- The all-zero box, the zero value of the `bbox` field of a fresh writer. -/
def zeroBox : Box := ⟨0, 0, 0, 0⟩

/-- `Create` (src/writer.go): both files seek past the 100-byte header, all
other fields start at their Go zero values. -/
def createState (t : Int) : WriterState :=
  ⟨100, [], 0, zeroBox, t, [], 0, 0, none⟩

/-- Bytes appended by `Writer.writeEmptyRecord` (src/writer.go): a zeroed
buffer of `recordLength` bytes whose first byte is set to the space 0x20
(`buf := make([]byte, w.dbfRecordLength); buf[0] = ' '`).  The remaining
bytes stay zero, they are not spaces. -/
def emptyRecordBytes (recordLength : Nat) : List Nat :=
  (List.replicate recordLength 0).set 0 32

/-- `Writer.Write` (src/writer.go): extends the bounding box (taking the
shape's box unchanged when `w.num == 0`), increments `num`, writes the record
number (4 bytes), skips 4 bytes for the length placeholder, records `start`
(the byte position of the shape-type tag), writes the tag (4 bytes) and the
payload, records `finish`, patches `length = ⌊(finish-start)/2⌋` back into the
placeholder and returns to `finish`, appends the index entry
`((start-8)/2, length)` to the .shx, and appends an empty DBF row when the
DBF is initialized.  `math.Floor` over float64 agrees with natural division
here since all positions stay far below 2^53. -/
def writerWrite (w : WriterState) (s : ShapeModel) : WriterState :=
  let bbox := if w.num = 0 then s.bbox else w.bbox.Extend s.bbox
  let start := w.shpPos + 4 + 4
  let finish := start + 4 + 2 * s.payloadWords
  let length := (finish - start) / 2
  { w with
    shpPos := finish
    shxEntries := w.shxEntries ++ [((start - 8) / 2, length)]
    num := w.num + 1
    bbox := bbox
    dbf := w.dbf.map fun d => ⟨d.recordLength, d.file ++ emptyRecordBytes d.recordLength⟩ }

/-- A sequence of `Writer.Write` calls. -/
def writeMany (w : WriterState) (shapes : List ShapeModel) : WriterState :=
  shapes.foldl writerWrite w

/-- The .shp/.shx header fields emitted by `Writer.writeHeader`
(src/writer.go). -/
structure ShpHeader where
  fileCode : Int
  filelengthWords : Nat
  version : Int
  shapeType : Int
  bbox : Box
deriving DecidableEq, Repr

/-- `Writer.writeHeader` (src/writer.go): seeks to the end for the file
length (an empty file counts as the bare 100-byte header), then emits file
code 9994, the length in 16-bit words, version 1000, the geometry type, the
writer's running bounding box, and four zero doubles. -/
def writerWriteHeader (w : WriterState) : ShpHeader :=
  let filelength := if w.shpPos = 0 then 100 else w.shpPos
  ⟨9994, filelength / 2, 1000, w.geometryType, w.bbox⟩

/-- Every write advances the .shp position by an even amount from an even
start, so positions reachable from `Create` stay even. -/
theorem writeMany_shpPos_even (shapes : List ShapeModel) :
    ∀ w : WriterState, 2 ∣ w.shpPos → 2 ∣ (writeMany w shapes).shpPos := by
  induction shapes with
  | nil => intro w h; exact h
  | cons s rest ih =>
    intro w h
    exact ih (writerWrite w s) (by simp only [writerWrite]; omega)

/-- C1: for every shape passed to `Writer.Write` on a writer built by `Create`
(after any previous writes), the `.shx` entry appended is
`((start - 8)/2, (finish - start)/2)` with `start` the byte position of the
record's shape-type tag (`w.shpPos + 8`, after the 4-byte record number and
the 4-byte length placeholder) and `finish` the position just after the
payload; moreover `offset · 2` equals the byte offset of the record's 8-byte
header and `contentLength · 2 + 8` equals the record's total byte size. -/
theorem write_shx_entry_correct (t : Int) (shapes : List ShapeModel) (s : ShapeModel) :
    let w := writeMany (createState t) shapes
    let w2 := writerWrite w s
    let start := w.shpPos + 8
    let finish := w2.shpPos
    w2.shxEntries = w.shxEntries ++ [((start - 8) / 2, (finish - start) / 2)] ∧
    ((start - 8) / 2) * 2 = w.shpPos ∧
    ((finish - start) / 2) * 2 + 8 = finish - w.shpPos := by
  intro w w2 start finish
  have heven : 2 ∣ w.shpPos :=
    writeMany_shpPos_even shapes (createState t) (by norm_num [createState])
  refine ⟨?_, ?_, ?_⟩
  · show (writerWrite w s).shxEntries =
      w.shxEntries ++ [((w.shpPos + 8 - 8) / 2, ((writerWrite w s).shpPos - (w.shpPos + 8)) / 2)]
    simp only [writerWrite]
  · show ((w.shpPos + 8 - 8) / 2) * 2 = w.shpPos
    omega
  · show (((writerWrite w s).shpPos - (w.shpPos + 8)) / 2) * 2 + 8 =
      (writerWrite w s).shpPos - w.shpPos
    simp only [writerWrite]
    omega

/-- The componentwise (min, max) union of a first box with a list of further
boxes, written out per the claim's words. -/
def unionOfBoxes (first : Box) (rest : List Box) : Box :=
  rest.foldl (fun acc o =>
    ⟨min acc.MinX o.MinX, min acc.MinY o.MinY, max acc.MaxX o.MaxX, max acc.MaxY o.MaxY⟩) first

/-- Once the writer has written at least one record, further writes fold
`Box.Extend` over the shapes' boxes. -/
theorem writeMany_bbox_aux (rest : List ShapeModel) :
    ∀ w : WriterState, w.num ≠ 0 →
      (writeMany w rest).bbox = unionOfBoxes w.bbox (rest.map ShapeModel.bbox) := by
  induction rest with
  | nil => intro w _; rfl
  | cons s r ih =>
    intro w h
    have h2 : (writerWrite w s).num ≠ 0 := by simp [writerWrite]
    have hbox : (writerWrite w s).bbox = w.bbox.Extend s.bbox := by
      simp [writerWrite, h]
    show (writeMany (writerWrite w s) r).bbox = _
    rw [ih (writerWrite w s) h2, hbox]
    rfl

/-- C4: after any sequence of `Writer.Write` calls on a fresh writer, the
running file-level bounding box - the value `Writer.writeHeader` persists in
the .shp header at close - equals the componentwise union of the written
shapes' boxes: the first box taken unchanged, each later box extending it. -/
theorem writer_bbox_is_union (t : Int) (s : ShapeModel) (rest : List ShapeModel) :
    (writeMany (createState t) (s :: rest)).bbox =
      unionOfBoxes s.bbox (rest.map ShapeModel.bbox) ∧
    (writerWriteHeader (writeMany (createState t) (s :: rest))).bbox =
      unionOfBoxes s.bbox (rest.map ShapeModel.bbox) := by
  have h1 : (writerWrite (createState t) s).bbox = s.bbox := by
    simp [writerWrite, createState]
  have h2 : (writerWrite (createState t) s).num ≠ 0 := by
    simp [writerWrite]
  have hmain : (writeMany (writerWrite (createState t) s) rest).bbox =
      unionOfBoxes s.bbox (rest.map ShapeModel.bbox) := by
    rw [writeMany_bbox_aux rest (writerWrite (createState t) s) h2, h1]
  exact ⟨hmain, hmain⟩

/-! ## Claims C2 and C3 -/

/-- A 200-byte .shp image whose header declares a file length of 50 16-bit
words (100 bytes) in the big-endian int32 at offset 24. -/
def shortDeclShpFile : List Nat := (List.replicate 200 0).set 27 50

/-- C2 counterexample: on a 200-byte file declaring 100 bytes, the iteration
bound is 200, the actual size, not the smaller of the two (100). -/
theorem c2_bound_not_min_counterexample :
    (readHeaders shortDeclShpFile).filelength = 200 ∧
    (readHeaders shortDeclShpFile).declaredWords = some 50 ∧
    (readHeaders shortDeclShpFile).filelength ≠ min (50 * 2) 200 := by
  refine ⟨by decide, by decide, by decide⟩

/-- C2 (amended): the iteration bound used by `Reader.Next` equals the actual
size of the .shp file; the header-declared length is read but never used, so
the bound does not depend on the file's bytes at all. -/
theorem iteration_bound_is_actual_size (file other : List Nat)
    (h : other.length = file.length) :
    (readHeaders file).filelength = file.length ∧
    (readHeaders other).filelength = (readHeaders file).filelength := by
  exact ⟨rfl, by simp [readHeaders, h]⟩

/-- Witness for `iteration_bound_is_actual_size` at two concrete files of
equal length. -/
theorem iteration_bound_is_actual_size_witness :
    (readHeaders [9, 9, 9]).filelength = [9, 9, 9].length ∧
    (readHeaders [0, 0, 0]).filelength = (readHeaders [9, 9, 9]).filelength :=
  iteration_bound_is_actual_size [9, 9, 9] [0, 0, 0] (by decide)

/-- A 32-byte .shp body, all zero except byte 16: the candidate record header
at offset 8 has record number 0, content length 0 and little-endian shape-type
tag 2 - a value outside the fourteen known tags. -/
def tagTwoFile : List Nat := (List.replicate 32 0).set 16 2

/-- C3 counterexample: the resynchronization scan accepts an offset whose
shape-type tag is 2, which is not one of the fourteen known values, so the
candidate test is not the fourteen-value membership the claim states. -/
theorem c3_accepts_unknown_tag_counterexample :
    trySkipToNextValidShape tagTwoFile 32 0 = some 8 ∧
    leI32At? tagTwoFile 16 = some 2 ∧ (2 : Int) ∉ knownShapeTypeTags := by
  refine ⟨?_, by decide, by decide⟩
  show trySkipFrom tagTwoFile 32 (0 + 8) = some 8
  exact (trySkipFrom_iff tagTwoFile 32 (0 + 8) 8).mpr
    ⟨0, by decide, by decide, by decide, fun j hj => absurd hj (Nat.not_lt_zero j)⟩

/-- C3 (amended): in resynchronization mode the reader scans forward from
`cur + 8` in 4-byte steps over positions below `filelength - 8` and resumes
normal iteration at the first offset passing exactly these tests: the record
header parses, the content length satisfies `0 ≤ size < 100000` 16-bit words,
the shape-type tag lies in the int32 range `NULL ≤ tag ≤ MULTIPATCH`
(0..31, not merely the fourteen enumerated values), and the implied record
end `pos + size·2 + 8` is within the iteration bound; if no candidate passes,
the scan yields none and iteration terminates. -/
theorem trySkip_first_valid_candidate (file : List Nat) (filelength cur q : Nat) :
    trySkipToNextValidShape file filelength cur = some q ↔
      ∃ k, q = cur + 8 + 4 * k ∧ q < filelength - 8 ∧
        validCandidate file filelength q = true ∧
        ∀ j, j < k → validCandidate file filelength (cur + 8 + 4 * j) = false :=
  trySkipFrom_iff file filelength (cur + 8) q

/-! ## DBF attribute reading (src/reader.go) -/

/-- Result of a Go method that can either return normally or panic. -/
inductive ReadResult (α : Type) where
  | panic : ReadResult α
  | value : α → ReadResult α
deriving DecidableEq, Repr

/-- `strings.Trim(s, " ")` (Go): remove leading and trailing space bytes.
NUL bytes are not in the cutset and are kept. -/
def trimSpaces (l : List Nat) : List Nat :=
  ((l.dropWhile fun b => b == 32).reverse.dropWhile fun b => b == 32).reverse

/-- The dbf-related fields of `Reader` (src/reader.go): the lazily opened
handle modelled by the file's bytes, the parsed field descriptors, and the
header/record lengths. -/
structure ReaderDbfState where
  dbf : Option (List Nat)
  dbfFields : List Field
  dbfHeaderLength : Nat
  dbfRecordLength : Nat
deriving DecidableEq, Repr

/-- Reader dbf state when no .dbf file exists alongside the .shp:
`Reader.openDbf` (src/reader.go) fails at `os.Open` and returns before
touching any dbf* field, so the handle stays nil and every field keeps its Go
zero value. -/
def noDbfState : ReaderDbfState := ⟨none, [], 0, 0⟩

/-- `Reader.ReadAttribute` (src/reader.go): the error of the lazy `openDbf`
is discarded (`_ = r.openDbf()`); the seek offset accumulates
`r.dbfFields[n].Size` for every `n < field` (a Go index-out-of-range panic
when the slice is shorter); `r.dbf.Seek` is then called (a nil-interface
panic when the handle was never opened); finally `r.dbfFields[field].Size`
bytes are read at the offset and returned with spaces trimmed.  All reads
stated about this model stay inside the file, where a single `os.File.Read`
fills the whole buffer. -/
def readerReadAttribute (r : ReaderDbfState) (row fieldIdx : Nat) :
    ReadResult (List Nat) :=
  if fieldIdx ≤ r.dbfFields.length then
    let seekTo := 1 + r.dbfHeaderLength + row * r.dbfRecordLength +
      sumSizes r.dbfFields fieldIdx
    match r.dbf with
    | none => .panic
    | some file =>
      if h : fieldIdx < r.dbfFields.length then
        .value (trimSpaces ((file.drop seekTo).take (r.dbfFields.get ⟨fieldIdx, h⟩).Size))
      else .panic
  else .panic

/-- C9: when the .dbf file is absent, `Reader.ReadAttribute` panics for every
row and field: the failed lazy open is discarded, and either the seek-offset
loop indexes the empty field slice (field ≥ 1), or the nil DBF handle's Seek
is invoked (field = 0); no error value or empty string is ever returned. -/
theorem readAttribute_no_dbf_panics (row fieldIdx : Nat) :
    readerReadAttribute noDbfState row fieldIdx = .panic := by
  cases fieldIdx with
  | zero => rfl
  | succ n => simp [readerReadAttribute, noDbfState]

/-! ## Claim C5: the empty DBF row -/

/-- Dropping from an appended list entirely inside the second part. -/
theorem drop_append_length_add (l1 l2 : List Nat) (i : Nat) :
    (l1 ++ l2).drop (l1.length + i) = l2.drop i := by
  induction l1 with
  | nil => simp
  | cons a l ih =>
    show (a :: (l ++ l2)).drop (l.length + 1 + i) = l2.drop i
    rw [show l.length + 1 + i = (l.length + i) + 1 from by omega, List.drop_succ_cons, ih]

/-- A run of NUL bytes contains no leading spaces. -/
theorem dropWhile_spaces_replicate_zero (k : Nat) :
    (List.replicate k (0 : Nat)).dropWhile (fun b => b == 32) = List.replicate k 0 := by
  cases k with
  | zero => rfl
  | succ k => rw [List.replicate_succ, List.dropWhile_cons]; simp

/-- Space-trimming a run of NUL bytes keeps it unchanged. -/
theorem trimSpaces_replicate_zero (k : Nat) :
    trimSpaces (List.replicate k 0) = List.replicate k 0 := by
  unfold trimSpaces
  rw [dropWhile_spaces_replicate_zero, List.reverse_replicate,
    dropWhile_spaces_replicate_zero, List.reverse_replicate]

/-- Sum of a prefix of the field sizes, next-field step. -/
theorem sumSizes_succ (fields : List Field) :
    ∀ n (h : n < fields.length),
      sumSizes fields (n + 1) = sumSizes fields n + (fields.get ⟨n, h⟩).Size := by
  induction fields with
  | nil => intro n h; exact absurd h (by simp)
  | cons f rest ih =>
    intro n h
    cases n with
    | zero => simp [sumSizes]
    | succ n =>
      have hn : n < rest.length := by simpa using h
      have := ih n hn
      simp only [sumSizes, List.take_succ_cons, List.map_cons, List.sum_cons,
        List.get_cons_succ] at *
      omega

/-- Sum of a prefix of the field sizes is at most the total. -/
theorem sumSizes_le_sum (fields : List Field) :
    ∀ n, sumSizes fields n ≤ (fields.map Field.Size).sum := by
  induction fields with
  | nil => intro n; simp [sumSizes]
  | cons f rest ih =>
    intro n
    cases n with
    | zero => simp [sumSizes]
    | succ n =>
      have := ih n
      simp only [sumSizes, List.take_succ_cons, List.map_cons, List.sum_cons] at *
      omega

/-- For a positive record length the appended row is one space then zeros. -/
theorem emptyRecordBytes_eq (L : Nat) (h : 1 ≤ L) :
    emptyRecordBytes L = 32 :: List.replicate (L - 1) 0 := by
  cases L with
  | zero => omega
  | succ L => simp [emptyRecordBytes, List.replicate_succ]

/-- Reading any cell of a freshly appended empty row yields the field's size
in NUL bytes (spaces are trimmed, NULs are not). -/
theorem readAttribute_of_empty_row (pre : List Nat) (fields : List Field)
    (hdrLen row fieldIdx : Nat) (hf : fieldIdx < fields.length)
    (hlen : pre.length = hdrLen + row * (1 + (fields.map Field.Size).sum)) :
    readerReadAttribute
      ⟨some (pre ++ emptyRecordBytes (1 + (fields.map Field.Size).sum)),
        fields, hdrLen, 1 + (fields.map Field.Size).sum⟩ row fieldIdx
      = .value (List.replicate (fields.get ⟨fieldIdx, hf⟩).Size 0) := by
  have hle : fieldIdx ≤ fields.length := Nat.le_of_lt hf
  rw [readerReadAttribute]
  simp only [if_pos hle]
  rw [dif_pos hf]
  congr 1
  have hseek : 1 + hdrLen + row * (1 + (fields.map Field.Size).sum) +
      sumSizes fields fieldIdx = pre.length + (1 + sumSizes fields fieldIdx) := by
    omega
  rw [hseek, drop_append_length_add,
    emptyRecordBytes_eq (1 + (fields.map Field.Size).sum) (by omega)]
  have h1 : (1 + (fields.map Field.Size).sum) - 1 = (fields.map Field.Size).sum := by
    omega
  rw [h1]
  rw [show 1 + sumSizes fields fieldIdx = sumSizes fields fieldIdx + 1 from by omega]
  rw [List.drop_succ_cons, List.drop_replicate, List.take_replicate]
  have hsz : sumSizes fields fieldIdx + (fields.get ⟨fieldIdx, hf⟩).Size ≤
      (fields.map Field.Size).sum := by
    have := sumSizes_succ fields fieldIdx hf
    have := sumSizes_le_sum fields (fieldIdx + 1)
    omega
  rw [Nat.min_eq_left (by omega)]
  exact trimSpaces_replicate_zero _

/-- A writer whose DBF is initialized with a single C(2) field: record length
3, a 65-byte DBF header already written (bytes irrelevant, 0xAA here). -/
def dbfWriter65 : DbfWriter := ⟨3, List.replicate 65 170⟩

/-- Concrete writer state for the C5 instances. -/
def writerWithDbf : WriterState :=
  ⟨100, [], 0, zeroBox, 1, [⟨"A", 67, 2, 0⟩], 65, 3, some dbfWriter65⟩

/-- C5 counterexample: `Writer.Write` on a writer with record length 3
appends the row [0x20, 0, 0] - not three spaces - and reading field 0 of
that row back yields two NUL bytes, not the empty string. -/
theorem c5_row_not_all_spaces_counterexample :
    (writerWrite writerWithDbf ⟨zeroBox, 10⟩).dbf =
      some ⟨3, List.replicate 65 170 ++ [32, 0, 0]⟩ ∧
    emptyRecordBytes 3 ≠ List.replicate 3 32 ∧
    readerReadAttribute
      ⟨some (List.replicate 65 170 ++ emptyRecordBytes 3), [⟨"A", 67, 2, 0⟩], 65, 3⟩ 0 0
      ≠ .value [] ∧
    readerReadAttribute
      ⟨some (List.replicate 65 170 ++ emptyRecordBytes 3), [⟨"A", 67, 2, 0⟩], 65, 3⟩ 0 0
      = .value [0, 0] := by
  refine ⟨by decide, by decide, by decide, by decide⟩

/-- C5 (amended): every `Writer.Write` on a writer whose DBF is initialized
appends a DBF row of `recordLength` bytes whose first byte (the deletion
flag) is a space and whose remaining bytes are zero; reading any attribute of
that row back before it is explicitly written yields a string of NUL bytes of
the field's declared size (non-empty whenever the size is positive), not the
empty string. -/
theorem write_appends_space_then_zeros (w : WriterState) (s : ShapeModel)
    (d : DbfWriter) (fields : List Field) (hdrLen row fieldIdx : Nat)
    (hdbf : w.dbf = some d)
    (hrec : d.recordLength = 1 + (fields.map Field.Size).sum)
    (hf : fieldIdx < fields.length)
    (hlen : d.file.length = hdrLen + row * d.recordLength) :
    (writerWrite w s).dbf =
      some ⟨d.recordLength, d.file ++ 32 :: List.replicate ((fields.map Field.Size).sum) 0⟩ ∧
    readerReadAttribute
      ⟨some (d.file ++ emptyRecordBytes d.recordLength), fields, hdrLen, d.recordLength⟩
      row fieldIdx
      = .value (List.replicate (fields.get ⟨fieldIdx, hf⟩).Size 0) := by
  constructor
  · have hstep : (writerWrite w s).dbf =
        some ⟨d.recordLength, d.file ++ emptyRecordBytes d.recordLength⟩ := by
      simp [writerWrite, hdbf]
    rw [hstep, emptyRecordBytes_eq d.recordLength (by omega),
      show d.recordLength - 1 = (fields.map Field.Size).sum from by omega]
  · rw [hrec] at hlen ⊢
    exact readAttribute_of_empty_row d.file fields hdrLen row fieldIdx hf hlen

/-- Witness for `write_appends_space_then_zeros` at the concrete writer. -/
theorem write_appends_space_then_zeros_witness :
    (writerWrite writerWithDbf ⟨zeroBox, 10⟩).dbf =
      some ⟨dbfWriter65.recordLength,
        dbfWriter65.file ++ 32 :: List.replicate (([⟨"A", 67, 2, 0⟩] : List Field).map Field.Size).sum 0⟩ ∧
    readerReadAttribute
      ⟨some (dbfWriter65.file ++ emptyRecordBytes dbfWriter65.recordLength),
        [⟨"A", 67, 2, 0⟩], 65, dbfWriter65.recordLength⟩ 0 0
      = .value (List.replicate (([⟨"A", 67, 2, 0⟩] : List Field).get ⟨0, by decide⟩).Size 0) :=
  write_appends_space_then_zeros writerWithDbf ⟨zeroBox, 10⟩ dbfWriter65
    [⟨"A", 67, 2, 0⟩] 65 0 0 rfl (by decide) (by decide) (by decide)

/-! ## Claim C10: Reader.Close -/

/-- The close-relevant fields of `Reader` (src/reader.go): the stored error,
whether the .shp handle is open, whether a .dbf handle was ever opened
(`r.dbf != nil`), and whether that handle is open. -/
structure CloseState where
  err : Option String
  shpOpen : Bool
  dbfPresent : Bool
  dbfOpen : Bool
deriving DecidableEq, Repr

/-- `Reader.Close` (src/reader.go): only when `r.err == nil` does it close the
.shp (storing that close's result in `r.err`) and, when `r.dbf != nil`, close
the .dbf discarding the result; it returns `r.err`.  `shpCloseErr` is the
result of the underlying .shp file close. -/
def readerClose (r : CloseState) (shpCloseErr : Option String) :
    CloseState × Option String :=
  match r.err with
  | none =>
    let r2 : CloseState :=
      ⟨shpCloseErr, false, r.dbfPresent, if r.dbfPresent then false else r.dbfOpen⟩
    (r2, shpCloseErr)
  | some e => (r, some e)

/-- C10: `Reader.Close` closes the underlying handles only when no error has
been recorded; with a stored error it performs no close, returns the stored
error, and leaves the whole state - in particular both open flags -
unchanged. -/
theorem readerClose_only_without_error (r : CloseState) (c : Option String) :
    (∀ e, r.err = some e → readerClose r c = (r, some e)) ∧
    (r.err = none →
      (readerClose r c).1.shpOpen = false ∧
      (r.dbfPresent = true → (readerClose r c).1.dbfOpen = false) ∧
      (readerClose r c).2 = c) := by
  constructor
  · intro e he
    simp [readerClose, he]
  · intro he
    refine ⟨?_, ?_, ?_⟩ <;> simp [readerClose, he]
    intro hp
    simp [hp]

/-- Witness for `readerClose_only_without_error`: a reader with a stored
error keeps its handles open and returns that error. -/
theorem readerClose_only_without_error_witness :
    readerClose ⟨some "boom", true, true, true⟩ none =
      (⟨some "boom", true, true, true⟩, some "boom") :=
  (readerClose_only_without_error ⟨some "boom", true, true, true⟩ none).1 "boom" rfl

/-! ## Claim C8: Writer.WriteAttribute before SetFields -/

/-- Left-pad a digit string with zeros to the wanted width. -/
def padZeros (s : String) (n : Nat) : String :=
  String.mk (List.replicate (n - s.length) '0') ++ s

/-- Fixed-notation decimal rendering with `prec` digits after the point,
standing for `strconv.FormatFloat(v, 'f', prec, 64)` on the ℚ-modelled
float64.  No claim inspects the produced digits; only the evaluation order
around this call matters. -/
def formatFixed (q : ℚ) (prec : Nat) : String :=
  let sign := if q < 0 then "-" else ""
  let scaled : Int := Int.floor (|q| * (10 : ℚ) ^ prec + 1 / 2)
  let ip := scaled / (10 : Int) ^ prec
  let fp := scaled % (10 : Int) ^ prec
  if prec = 0 then sign ++ toString ip
  else sign ++ toString ip ++ "." ++ padZeros (toString fp) prec

/-- A Go `interface\x7b\x7d` value passed to `WriteAttribute`: the supported
dynamic types int, float64 and string, plus any other type (the switch's
default arm). -/
inductive GoValue where
  | intVal : Int → GoValue
  | floatVal : ℚ → GoValue
  | strVal : String → GoValue
  | other : GoValue
deriving DecidableEq

/-- Outcome of `Writer.WriteAttribute`: a Go runtime panic, a returned error
value, or a successful write of the buffer at an absolute DBF offset. -/
inductive WAResult where
  | panic : WAResult
  | goError : String → WAResult
  | ok : Nat → String → WAResult
deriving DecidableEq, Repr

/-- `Writer.WriteAttribute` (src/writer.go): the switch on the value's
dynamic type runs first - the float64 arm reads
`w.dbfFields[field].Precision` before anything else (a Go index-out-of-range
panic when `field` is outside the slice, in particular always before
`SetFields`), the default arm returns the "unsupported value type" error.
Only afterwards comes the `w.dbf == nil` check, then the length check
(indexing `w.dbfFields[field]` again), then the seek to `dbfFieldOffset` and
the write.  Buffer length is the Go byte length. -/
def writeAttribute (w : WriterState) (row fieldIdx : Nat) (v : GoValue) :
    WAResult :=
  let step : WAResult ⊕ String :=
    match v with
    | .intVal i => Sum.inr (toString i)
    | .floatVal q =>
      match w.dbfFields.get? fieldIdx with
      | none => Sum.inl .panic
      | some f => Sum.inr (formatFixed q f.Precision)
    | .strVal sv => Sum.inr sv
    | .other => Sum.inl (.goError "unsupported value type")
  match step with
  | Sum.inl r => r
  | Sum.inr buf =>
    match w.dbf with
    | none => .goError "initialize DBF by using SetFields first"
    | some _ =>
      match w.dbfFields.get? fieldIdx with
      | none => .panic
      | some f =>
        if buf.utf8ByteSize > f.Size then
          .goError "value exceeds field length"
        else
          .ok (dbfFieldOffset w.dbfHeaderLength w.dbfRecordLength row w.dbfFields fieldIdx) buf

/-- C8 counterexample: before `SetFields` (nil DBF, empty field slice) a
float64 attribute value panics - the switch indexes the empty
field-descriptor slice for the precision - instead of returning the defined
error the claim promises for every supported type. -/
theorem c8_float_panics_counterexample :
    writeAttribute (createState 1) 0 0 (GoValue.floatVal 0) = WAResult.panic := by
  rfl

/-- C8 (amended): calling `Writer.WriteAttribute` before `SetFields` (nil
DBF handle, empty field slice) returns the defined error "initialize DBF by
using SetFields first" for integer and string values at every row and field
index, without writing anything; for float values it instead panics on the
empty field-descriptor slice. -/
theorem writeAttribute_before_setFields (w : WriterState) (row fieldIdx : Nat)
    (hdbf : w.dbf = none) (hfields : w.dbfFields = []) :
    (∀ i, writeAttribute w row fieldIdx (.intVal i) =
      .goError "initialize DBF by using SetFields first") ∧
    (∀ sv, writeAttribute w row fieldIdx (.strVal sv) =
      .goError "initialize DBF by using SetFields first") ∧
    (∀ q, writeAttribute w row fieldIdx (.floatVal q) = .panic) := by
  refine ⟨fun i => ?_, fun sv => ?_, fun q => ?_⟩ <;>
    simp [writeAttribute, hdbf, hfields]

/-- Witness for `writeAttribute_before_setFields` on a fresh writer. -/
theorem writeAttribute_before_setFields_witness :
    writeAttribute (createState 1) 2 3 (GoValue.intVal 42) =
      WAResult.goError "initialize DBF by using SetFields first" ∧
    writeAttribute (createState 1) 2 3 (GoValue.strVal "x") =
      WAResult.goError "initialize DBF by using SetFields first" ∧
    writeAttribute (createState 1) 2 3 (GoValue.floatVal (1 / 2)) = WAResult.panic :=
  ⟨(writeAttribute_before_setFields (createState 1) 2 3 rfl rfl).1 42,
   (writeAttribute_before_setFields (createState 1) 2 3 rfl rfl).2.1 "x",
   (writeAttribute_before_setFields (createState 1) 2 3 rfl rfl).2.2 (1 / 2)⟩

/-! ## Claim C6: DBF cell to GeoJSON property -/

/-- A JSON property value produced from a DBF cell. -/
inductive PropOut where
  | null : PropOut
  | intVal : Int → PropOut
  | floatVal : ℚ → PropOut
  | boolVal : Bool → PropOut
  | strVal : String → PropOut
deriving DecidableEq

/-- The attribute-to-property step of `GeoJSONConverter.ShapefileToGeoJSON`
(src/geojson.go): an empty cell yields nil; otherwise
`strconv.ParseInt(attr, 10, 64)`, then `strconv.ParseFloat(attr, 64)`, then
the literals "true"/"false" are attempted in order, falling back to the
(already space-trimmed) cell string.  The two strconv parsers are passed as
parameters. -/
def convertCell (parseInt : String → Option Int) (parseFloat : String → Option ℚ)
    (attr : String) : PropOut :=
  if attr = "" then .null
  else
    match parseInt attr with
    | some i => .intVal i
    | none =>
      match parseFloat attr with
      | some f => .floatVal f
      | none =>
        if (attr == "true" || attr == "false") then .boolVal (attr == "true")
        else .strVal attr

/-- The claim's procedure, following the spec's words (§4.6.1): attempt in
order 64-bit signed decimal integer, 64-bit float, the boolean literals;
otherwise use the trimmed string; an empty cell becomes JSON null. -/
def convertCellSpec (parseInt : String → Option Int)
    (parseFloat : String → Option ℚ) (attr : String) : PropOut :=
  match parseInt attr with
  | some i => .intVal i
  | none =>
    match parseFloat attr with
    | some f => .floatVal f
    | none =>
      if (attr == "true" || attr == "false") then .boolVal (attr == "true")
      else if attr = "" then .null else .strVal attr

/-- C6: for every DBF cell the code's conversion coincides with the spec's
ordered-attempt procedure, given only that the two strconv parsers reject
the empty string (both return a syntax error on ""). -/
theorem convertCell_matches_spec (parseInt : String → Option Int)
    (parseFloat : String → Option ℚ)
    (hpi : parseInt "" = none) (hpf : parseFloat "" = none) (attr : String) :
    convertCell parseInt parseFloat attr = convertCellSpec parseInt parseFloat attr := by
  by_cases h : attr = ""
  · subst h
    simp [convertCell, convertCellSpec, hpi, hpf]
  · rw [convertCell, convertCellSpec, if_neg h]
    cases parseInt attr with
    | some i => rfl
    | none =>
      cases parseFloat attr with
      | some f => rfl
      | none =>
        by_cases hb : (attr == "true" || attr == "false") = true
        · rw [if_pos hb, if_pos hb]
        · rw [if_neg hb, if_neg hb, if_neg h]

/-- Witness for `convertCell_matches_spec` with parsers that reject every
string, on a non-numeric cell. -/
theorem convertCell_matches_spec_witness :
    convertCell (fun _ => none) (fun _ => none) "abc" =
      convertCellSpec (fun _ => none) (fun _ => none) "abc" :=
  convertCell_matches_spec (fun _ => none) (fun _ => none) rfl rfl "abc"

/-! ## Claim C7: GeoJSON field inference -/

/-- A GeoJSON property value as the Go type switch of
`createFieldsFromProperties` sees it. -/
inductive JSONProp where
  | strVal : String → JSONProp
  | intVal : Int → JSONProp
  | floatVal : ℚ → JSONProp
  | boolVal : Bool → JSONProp
  | nullOrOther : JSONProp
deriving DecidableEq

/-- One property's field inference in `createFieldsFromProperties`
(src/geojson.go): names longer than 10 bytes are truncated; a string value
yields `StringField(name, uint8(length))` with
`length = len(v); if length > 254 \x7b length = 254 \x7d` - there is no lower
bound, so an empty string yields declared length 0; int kinds yield N(10),
float kinds F(15, 6), bool C(1), null or any other type C(50). -/
def fieldForProperty (name : String) (v : JSONProp) : Field :=
  let name2 := if name.length > 10 then (name.toList.take 10).asString else name
  match v with
  | .strVal sv =>
    let length := if sv.utf8ByteSize > 254 then 254 else sv.utf8ByteSize
    StringField name2 (length % 256)
  | .intVal _ => NumberField name2 10
  | .floatVal _ => FloatField name2 15 6
  | .boolVal _ => StringField name2 1
  | .nullOrOther => StringField name2 50

/-- C7 counterexample: an empty-string property yields a C field of declared
length 0, not the claimed minimum of 1. -/
theorem c7_empty_string_length_zero_counterexample :
    (fieldForProperty "a" (JSONProp.strVal "")).Size = 0 ∧
    ¬ 1 ≤ (fieldForProperty "a" (JSONProp.strVal "")).Size := by
  refine ⟨by rfl, by decide⟩

/-- C7 (amended): a string-valued property produces a character (C) DBF
field whose declared length equals `min(byte length of the value, 254)`,
with no lower bound: the empty string gives declared length 0. -/
theorem string_property_field_size (name sv : String) :
    (fieldForProperty name (JSONProp.strVal sv)).Fieldtype = 67 ∧
    (fieldForProperty name (JSONProp.strVal sv)).Size = min sv.utf8ByteSize 254 := by
  unfold fieldForProperty StringField
  refine ⟨rfl, ?_⟩
  by_cases hgt : sv.utf8ByteSize > 254
  · simp only [hgt, if_true]
    omega
  · simp only [hgt, if_false]
    omega

end GoShp
